import Mathlib

/-!
Verification of `src/copado-function/app/common/Util.js` (sfmc-devtools-copado).

The file shallowly embeds the JavaScript source: JavaScript values are the
inductive `JsVal`; objects are association lists of string keys (built with
`objInsert`, which models `obj[k] = v`: replace in place when the key exists,
append otherwise); thrown exceptions are `Except.error` carrying a `JsError`;
the external synchronous process-execution primitive (`execSync`) is an
explicit `runner` oracle; the filesystem is an explicit `FileSystem` record;
leveled log output is returned as an explicit list of entries.
-/

namespace SfmcCopado

/-- Levels of the logging collaborator consumed by `Util.js`. -/
inductive LogLevel where
  | debug
  | progress
  | info
  | warn
  | error
deriving DecidableEq, Repr

abbrev LogEntry := LogLevel × String

/-- Exceptions thrown by the embedded code: `jsError m` models
`throw new Error(m)`; `typeError` models the runtime TypeError raised by a
member access on `undefined`/`null` or by iterating a non-iterable value;
`syntaxError` models the exception of `JSON.parse` on invalid input. -/
inductive JsError where
  | jsError (msg : String)
  | typeError (msg : String)
  | syntaxError (msg : String)
deriving DecidableEq, Repr

/-- JavaScript values, as far as `Util.js` needs them. JSON numbers are
modelled as integers (the configuration payloads handled by the program hold
strings and integral ids only). -/
inductive JsVal where
  | undefined
  | null
  | bool (b : Bool)
  | num (n : Int)
  | str (s : String)
  | arr (items : List JsVal)
  | obj (fields : List (String × JsVal))

/-- JavaScript truthiness: `undefined`, `null`, `false`, `0` and `""` are
falsy; every other value (including `[]` and an empty object) is truthy. -/
def jsTruthy : JsVal → Bool
  | .undefined => false
  | .null => false
  | .bool b => b
  | .num n => decide (n ≠ 0)
  | .str s => decide (s ≠ "")
  | .arr _ => true
  | .obj _ => true

/-- Field lookup in an object's association list (objects keep at most one
binding per key, so the first match is the binding). -/
def objGet (k : String) : List (String × JsVal) → Option JsVal
  | [] => none
  | (k2, v) :: rest => if k = k2 then some v else objGet k rest

/-- `obj[k] = v`: replace the existing binding in place (keeping its
position, as JavaScript objects do), or append a new binding at the end. -/
def objInsert (o : List (String × JsVal)) (k : String) (v : JsVal) : List (String × JsVal) :=
  match o with
  | [] => [(k, v)]
  | (k2, w) :: rest => if k = k2 then (k2, v) :: rest else (k2, w) :: objInsert rest k v

/-- `isJsObj v` holds exactly when `v` is a plain object. -/
def isJsObj : JsVal → Bool
  | .obj _ => true
  | _ => false

mutual
/-- JavaScript string conversion (`ToString` / `ToPropertyKey` for the value
shapes the program can feed into a property key or a primitive comparison):
arrays stringify as their elements joined by commas with `null`/`undefined`
elements rendered empty, plain objects as `[object Object]`. -/
def jsValToString : JsVal → String
  | .undefined => "undefined"
  | .null => "null"
  | .bool b => cond b "true" "false"
  | .num n => toString n
  | .str s => s
  | .arr items => String.intercalate "," (jsArrElemStrings items)
  | .obj _ => "[object Object]"

/-- Element-wise stringification used by array `toString` (a `null` or
`undefined` element renders as the empty string). -/
def jsArrElemStrings : List JsVal → List String
  | [] => []
  | .undefined :: rest => "" :: jsArrElemStrings rest
  | .null :: rest => "" :: jsArrElemStrings rest
  | v :: rest => jsValToString v :: jsArrElemStrings rest
end

/-- `ToNumber` on strings, restricted to the shapes the program compares
(optionally signed decimal integers, surrounding whitespace allowed; the
empty/blank string converts to 0; anything else is NaN, modelled as `none`).
Hexadecimal, fractional and exponent forms are not modelled — the tenant ids
this program compares are plain integral strings. -/
def strToNum (s : String) : Option Int :=
  let ws : Char → Bool := fun c => c = ' ' ∨ c = '\t' ∨ c = '\n' ∨ c = '\r'
  let t := ((s.toList.dropWhile ws).reverse.dropWhile ws).reverse
  if t = [] then some 0
  else
    let (sign, digits) :=
      match t with
      | '-' :: rest => ((-1 : Int), rest)
      | '+' :: rest => ((1 : Int), rest)
      | _ => ((1 : Int), t)
    if digits ≠ [] ∧ digits.all Char.isDigit then
      some (sign * (digits.foldl (fun a c => a * 10 + (c.toNat - 48)) 0 : Nat))
    else none

/-- JavaScript loose equality `v == s` for a string right operand `s`
(the shape used in `getBuName`, where `mid` is a string parameter):
string-string compares as strings; number-string converts the string with
`ToNumber`; booleans convert to 0/1; `null`/`undefined` are not loosely equal
to any string; arrays and objects go through `ToPrimitive` (string
conversion) first and then compare as strings. -/
def jsLooseEqStr (v : JsVal) (s : String) : Bool :=
  match v with
  | .str t => decide (t = s)
  | .num n => decide (strToNum s = some n)
  | .bool b => decide (strToNum s = some (cond b 1 0))
  | .null => false
  | .undefined => false
  | .arr _ => decide (jsValToString v = s)
  | .obj _ => decide (jsValToString v = s)

/-- Keys of a list, first occurrence wins (JavaScript object key order). -/
def dedupKeysAux : List String → List String → List String
  | _, [] => []
  | seen, k :: rest =>
    if seen.contains k then dedupKeysAux seen rest
    else k :: dedupKeysAux (k :: seen) rest

def dedupKeys (ks : List String) : List String := dedupKeysAux [] ks

/-- `Object.keys`: own enumerable keys of an object in insertion order; index
keys for arrays and strings; no keys for primitives. -/
def jsObjectKeys : JsVal → List String
  | .obj fields => dedupKeys (fields.map Prod.fst)
  | .arr items => (List.range items.length).map (fun i => toString i)
  | .str s => (List.range s.length).map (fun i => toString i)
  | _ => []

/-- Value of a non-empty digit run. -/
def digitsVal (ds : List Char) : Nat :=
  ds.foldl (fun a c => a * 10 + (c.toNat - 48)) 0

/-- Index interpretation of a property key (for array and string bases): a
non-empty all-digit key reads as an index, anything else does not. -/
def strIndex? (k : String) : Option Nat :=
  if k.toList ≠ [] ∧ k.toList.all Char.isDigit then some (digitsVal k.toList) else none

/-- Non-throwing property read `v[k]` (the bases the program reads from are
never `null`/`undefined` on this path): object field, array or string index;
reading any key off a primitive yields `undefined` (prototype properties are
not modelled). -/
def jsGet (v : JsVal) (k : String) : JsVal :=
  match v with
  | .obj fields => (objGet k fields).getD .undefined
  | .arr items =>
    match strIndex? k with
    | some i => items.getD i .undefined
    | none => .undefined
  | .str s =>
    match strIndex? k with
    | some i =>
      match (s.toList.drop i).head? with
      | some c => .str (String.mk [c])
      | none => .undefined
    | none => .undefined
  | _ => .undefined

/-- Property read `v[k]` as the runtime performs it: a member access on
`undefined` or `null` throws a TypeError. -/
def jsGetMember (v : JsVal) (k : String) : Except JsError JsVal :=
  match v with
  | .undefined =>
    .error (.typeError ("Cannot read properties of undefined (reading " ++ k ++ ")"))
  | .null =>
    .error (.typeError ("Cannot read properties of null (reading " ++ k ++ ")"))
  | w => .ok (jsGet w k)

/-- `for (const item of v)`: arrays iterate their elements, strings iterate
their characters, everything else (plain objects included) throws a
TypeError. -/
def jsIterate : JsVal → Except JsError (List JsVal)
  | .arr items => .ok items
  | .str s => .ok (s.toList.map (fun c => .str (String.mk [c])))
  | _ => .error (.typeError "envVarArr is not iterable")

/-! ### JSON.parse

A recursive-descent parser modelling `JSON.parse` on the payload shapes the
program receives: objects, arrays, strings (with the basic escapes), signed
integers, `true`/`false`/`null`. Duplicate object keys are resolved as the
runtime does (last value wins, first insertion fixes the position) by
building objects with `objInsert`. A fuel argument makes the recursion
structural; `jsonParse` supplies enough fuel for its input. -/

/-- Skip JSON whitespace. -/
def skipWs : List Char → List Char
  | [] => []
  | c :: cs => if c = ' ' ∨ c = '\t' ∨ c = '\n' ∨ c = '\r' then skipWs cs else c :: cs

/-- Parse the remainder of a JSON string literal (after the opening quote),
accumulating decoded characters. -/
def parseStrBody : Nat → List Char → List Char → Option (String × List Char)
  | 0, _, _ => none
  | _, [], _ => none
  | f + 1, c :: rest, acc =>
    if c = '"' then some (String.mk acc.reverse, rest)
    else if c = '\\' then
      match rest with
      | [] => none
      | e :: rest2 =>
        let dec : Option Char :=
          if e = '"' then some '"'
          else if e = '\\' then some '\\'
          else if e = '/' then some '/'
          else if e = 'n' then some '\n'
          else if e = 't' then some '\t'
          else if e = 'r' then some '\r'
          else none
        match dec with
        | some d => parseStrBody f rest2 (d :: acc)
        | none => none
    else parseStrBody f rest (c :: acc)

mutual
/-- Parse one JSON value. -/
def parseVal : Nat → List Char → Option (JsVal × List Char)
  | 0, _ => none
  | fuel + 1, cs0 =>
    match skipWs cs0 with
    | [] => none
    | c :: rest =>
      if c = '"' then
        match parseStrBody (rest.length + 1) rest [] with
        | some (s, rest2) => some (.str s, rest2)
        | none => none
      else if c = '[' then
        match skipWs rest with
        | ']' :: rest2 => some (.arr [], rest2)
        | cs2 => parseArrItems fuel cs2 []
      else if c = '\x7b' then
        match skipWs rest with
        | '\x7d' :: rest2 => some (.obj [], rest2)
        | cs2 => parseObjFields fuel cs2 []
      else if c = 't' then
        if rest.take 3 = ['r', 'u', 'e'] then some (.bool true, rest.drop 3) else none
      else if c = 'f' then
        if rest.take 4 = ['a', 'l', 's', 'e'] then some (.bool false, rest.drop 4) else none
      else if c = 'n' then
        if rest.take 3 = ['u', 'l', 'l'] then some (.null, rest.drop 3) else none
      else if c = '-' then
        match rest.span Char.isDigit with
        | ([], _) => none
        | (ds, rest2) => some (.num (-(digitsVal ds : Int)), rest2)
      else if c.isDigit then
        match (c :: rest).span Char.isDigit with
        | (ds, rest2) => some (.num (digitsVal ds : Int), rest2)
      else none

/-- Parse the items of a non-empty JSON array (after the opening bracket). -/
def parseArrItems : Nat → List Char → List JsVal → Option (JsVal × List Char)
  | 0, _, _ => none
  | fuel + 1, cs, acc =>
    match parseVal fuel cs with
    | none => none
    | some (v, rest) =>
      match skipWs rest with
      | ',' :: rest2 => parseArrItems fuel (skipWs rest2) (acc ++ [v])
      | ']' :: rest2 => some (.arr (acc ++ [v]), rest2)
      | _ => none

/-- Parse the fields of a non-empty JSON object (after the opening brace). -/
def parseObjFields : Nat → List Char → List (String × JsVal) → Option (JsVal × List Char)
  | 0, _, _ => none
  | fuel + 1, cs, acc =>
    match cs with
    | '"' :: rest =>
      match parseStrBody (rest.length + 1) rest [] with
      | none => none
      | some (k, rest2) =>
        match skipWs rest2 with
        | ':' :: rest3 =>
          match parseVal fuel (skipWs rest3) with
          | none => none
          | some (v, rest4) =>
            match skipWs rest4 with
            | ',' :: rest5 => parseObjFields fuel (skipWs rest5) (objInsert acc k v)
            | '\x7d' :: rest5 => some (.obj (objInsert acc k v), rest5)
            | _ => none
        | _ => none
    | _ => none
end

/-- `JSON.parse`: parse the whole string as one JSON value (trailing
whitespace allowed); `none` models the thrown SyntaxError. -/
def jsonParse (s : String) : Option JsVal :=
  match parseVal (s.length + 1) s.toList with
  | some (v, rest) => if skipWs rest = [] then some v else none
  | none => none

/-! ### Command Executor (`Util.execCommand`, `Util.execCommandReturnStatus`)

`execSync` is modelled by an oracle `runner : String → ExecOutcome`; its
exception carries the child's reported `status` (`none` models the
`null`/`undefined` status of a process killed before reporting a code) and
its `message`. Log output is returned explicitly. -/

/-- The `command` parameter: a single string or an ordered list of strings. -/
inductive Command where
  | str (s : String)
  | arr (cmds : List String)

/-- `if (command && Array.isArray(command)) command = command.join(' && ')`. -/
def resolveCommand : Command → String
  | .str s => s
  | .arr cmds => String.intercalate " && " cmds

/-- The exception thrown by `execSync` on failure. -/
structure ExecException where
  status : Option Int
  message : String
deriving DecidableEq

/-- Outcome of running one command through `execSync`. -/
inductive ExecOutcome where
  | success
  | failure (ex : ExecException)
deriving DecidableEq

/-- JavaScript string conversion of `ex.status` as it appears in the
template `ex.status + ': ' + ex.message`. -/
def statusToString : Option Int → String
  | none => "null"
  | some n => toString n

/-- Message of `new Error(ex)` where `ex` is an Error object: the argument is
string-converted, giving `"Error: " ++ ex.message`. -/
def execErrorMessage (ex : ExecException) : String := "Error: " ++ ex.message

/-- `Util.execCommand` (fail-fast mode), lines 56-76 of `Util.js`. Returns
the emitted log entries and either unit (success) or the raised error. -/
def execCommand (runner : String → ExecOutcome) (preMsg : Option String)
    (command : Command) (postMsg : Option String) :
    List LogEntry × Except JsError Unit :=
  let preLogs : List LogEntry :=
    match preMsg with
    | some m => [(LogLevel.progress, m)]
    | none => []
  let cmd := resolveCommand command
  let logs := preLogs ++ [(LogLevel.debug, "⚡ " ++ cmd)]
  match runner cmd with
  | .failure ex =>
    (logs ++ [(LogLevel.info, statusToString ex.status ++ ": " ++ ex.message)],
     .error (.jsError (execErrorMessage ex)))
  | .success =>
    (logs ++
      (match postMsg with
       | some m => [(LogLevel.debug, "✔️  " ++ m)]
       | none => []),
     .ok ())

/-- `Util.execCommandReturnStatus` (status-capturing mode), lines 86-114 of
`Util.js`. Returns the emitted log entries and the exit code: `some 0` on
success, `ex.status` on failure (so `none` when the child reported no
status). The function never raises: its only throwing step (`execSync`) is
wrapped in try/catch, so the result type is total. -/
def execCommandReturnStatus (runner : String → ExecOutcome) (preMsg : Option String)
    (command : Command) (postMsg : Option String) :
    List LogEntry × Option Int :=
  let preLogs : List LogEntry :=
    match preMsg with
    | some m => [(LogLevel.progress, m)]
    | none => []
  let cmd := resolveCommand command
  let logs := preLogs ++ [(LogLevel.debug, "⚡ " ++ cmd)]
  match runner cmd with
  | .failure ex =>
    (logs ++ [(LogLevel.warn, "❌  " ++ statusToString ex.status ++ ": " ++ ex.message)],
     ex.status)
  | .success =>
    (logs ++
      (match postMsg with
       | some m => [(LogLevel.progress, "✔️  " ++ m)]
       | none => []),
     some 0)

/-! ### Config Normalizer (`Util._convertEnvVars`, `Util._convertEnvChildVars`,
`Util.convertEnvVariables`) -/

/-- The loop of `_convertEnvVars`: `for (const item of arr)
response[item.name] = item.value`, starting from accumulator `acc`. The
member accesses throw on `null`/`undefined` items; the property key is the
string conversion of `item.name`. -/
def buildEnvObj (acc : List (String × JsVal)) :
    List JsVal → Except JsError (List (String × JsVal))
  | [] => .ok acc
  | item :: rest =>
    match jsGetMember item "name" with
    | .error e => .error e
    | .ok n =>
      match jsGetMember item "value" with
      | .error e => .error e
      | .ok v => buildEnvObj (objInsert acc (jsValToString n) v) rest

/-- `Util._convertEnvVars`, lines 206-218 of `Util.js`: falsy input is passed
through unchanged; a string input is `JSON.parse`d; the (parsed) value is
iterated with `for...of` and folded into a fresh object. -/
def _convertEnvVars (envVarArr : JsVal) : Except JsError JsVal :=
  if ¬ jsTruthy envVarArr then .ok envVarArr
  else
    let parsed : Except JsError JsVal :=
      match envVarArr with
      | .str s =>
        match jsonParse s with
        | some v => .ok v
        | none => .error (.syntaxError "Unexpected token in JSON")
      | v => .ok v
    match parsed with
    | .error e => .error e
    | .ok v =>
      match jsIterate v with
      | .error e => .error e
      | .ok items =>
        match buildEnvObj [] items with
        | .error e => .error e
        | .ok fields => .ok (.obj fields)

/-- The loop of `_convertEnvChildVars`: `for (const item of arr)
response[item.id] = this._convertEnvVars(item.environmentVariables)`. -/
def buildChildObj (acc : List (String × JsVal)) :
    List JsVal → Except JsError (List (String × JsVal))
  | [] => .ok acc
  | item :: rest =>
    match jsGetMember item "id" with
    | .error e => .error e
    | .ok i =>
      match jsGetMember item "environmentVariables" with
      | .error e => .error e
      | .ok ev =>
        match _convertEnvVars ev with
        | .error e => .error e
        | .ok conv => buildChildObj (objInsert acc (jsValToString i) conv) rest

/-- `Util._convertEnvChildVars`, lines 225-237 of `Util.js`. -/
def _convertEnvChildVars (envChildVarArr : JsVal) : Except JsError JsVal :=
  if ¬ jsTruthy envChildVarArr then .ok envChildVarArr
  else
    let parsed : Except JsError JsVal :=
      match envChildVarArr with
      | .str s =>
        match jsonParse s with
        | some v => .ok v
        | none => .error (.syntaxError "Unexpected token in JSON")
      | v => .ok v
    match parsed with
    | .error e => .error e
    | .ok v =>
      match jsIterate v with
      | .error e => .error e
      | .ok items =>
        match buildChildObj [] items with
        | .error e => .error e
        | .ok fields => .ok (.obj fields)

/-- `key.endsWith('Children')` — suffix test on the character lists. -/
def strEndsWith (s suf : String) : Bool := suf.toList.isSuffixOf s.toList

/-- `Util.convertEnvVariables`, lines 191-199 of `Util.js`: for each key of
the mapping (in order), replace the value in place by `_convertEnvChildVars`
when the key ends with `'Children'` and by `_convertEnvVars` otherwise. The
in-place mutation of the object is modelled by returning the updated field
list; a thrown error propagates from the first failing key. -/
def convertEnvVariables : List (String × JsVal) → Except JsError (List (String × JsVal))
  | [] => .ok []
  | (key, value) :: rest =>
    match
      (if strEndsWith key "Children" then _convertEnvChildVars value
       else _convertEnvVars value) with
    | .error e => .error e
    | .ok v =>
      match convertEnvVariables rest with
      | .error e => .error e
      | .ok rest2 => .ok ((key, v) :: rest2)

/-! ### Target Resolver (`Util.getBuName`) -/

/-- The filesystem collaborator of `getBuName`: an existence check and the
parsed JSON content of a path (`JSON.parse(fs.readFileSync(path, 'utf8'))`;
the claims quantify over parsed configuration files, so the content is
modelled at the parsed level). -/
structure FileSystem where
  fileExists : String → Bool
  parsedContent : String → JsVal

/-- `Util.getBuName`, lines 245-270 of `Util.js`. Returns the emitted log
entries and either the resolved `credName/buName` string, `undefined` when no
resolution is available, or the raised error. -/
def getBuName (configFilePath : String) (fs : FileSystem) (credName mid : String) :
    List LogEntry × Except JsError JsVal :=
  if credName = "" then
    ([], .error (.jsError "System Property \"credentialName\" not set"))
  else if mid = "" then
    ([], .error (.jsError "System Property \"mid\" not set"))
  else if fs.fileExists configFilePath = false then
    ([], .error (.jsError ("Could not find config file " ++ configFilePath)))
  else
    let config := fs.parsedContent configFilePath
    match jsGetMember config "credentials" with
    | .error e => ([], .error e)
    | .ok creds =>
      match jsGetMember creds credName with
      | .error e => ([], .error e)
      | .ok credEntry =>
        if jsTruthy credEntry then
          let bus := jsGet credEntry "businessUnits"
          if jsTruthy bus then
            let myBuNameArr :=
              (jsObjectKeys bus).filter (fun buName => jsLooseEqStr (jsGet bus buName) mid)
            match myBuNameArr with
            | [buName] =>
              ([(LogLevel.debug, "BU Name is: " ++ credName ++ "/" ++ buName)],
               .ok (.str (credName ++ "/" ++ buName)))
            | _ =>
              ([], .error (.jsError ("MID " ++ mid ++ " not found for " ++ credName)))
          else ([], .ok .undefined)
        else ([], .ok .undefined)

/-! ## Lemmas about the object model -/

theorem objGet_objInsert (o : List (String × JsVal)) (k : String) (v : JsVal) (k' : String) :
    objGet k' (objInsert o k v) = if k' = k then some v else objGet k' o := by
  induction o with
  | nil =>
    by_cases h : k' = k <;> simp [objInsert, objGet, h]
  | cons p rest ih =>
    obtain ⟨k2, w⟩ := p
    by_cases h1 : k = k2
    · subst h1
      by_cases h2 : k' = k <;> simp [objInsert, objGet, h2]
    · by_cases h2 : k' = k2
      · subst h2
        have h3 : ¬ k' = k := fun hc => h1 (hc ▸ rfl)
        simp [objInsert, objGet, h1, h3]
      · simp [objInsert, objGet, h1, h2, ih]

/-- Last-occurrence association lookup (the key/value pairs are consulted
from the back: a later binding of the same key wins). -/
def lastAssoc (k : String) : List (String × JsVal) → Option JsVal
  | [] => none
  | (k2, v) :: rest =>
    match lastAssoc k rest with
    | some w => some w
    | none => if k = k2 then some v else none

/-- The (property-key, value) pairs that the flat-list loop writes, in
iteration order. -/
def envEntries (items : List JsVal) : List (String × JsVal) :=
  items.map (fun it => (jsValToString (jsGet it "name"), jsGet it "value"))

theorem buildEnvObj_ok (items : List JsVal) (acc : List (String × JsVal))
    (h : ∀ it ∈ items, isJsObj it = true) :
    ∃ res, buildEnvObj acc items = .ok res ∧
      ∀ k, objGet k res =
        match lastAssoc k (envEntries items) with
        | some v => some v
        | none => objGet k acc := by
  induction items generalizing acc with
  | nil => exact ⟨acc, rfl, fun k => by simp [envEntries, lastAssoc]⟩
  | cons it rest ih =>
    have hobj : isJsObj it = true := h it (by simp)
    obtain ⟨f, rfl⟩ : ∃ f, it = .obj f := by
      cases it <;> simp [isJsObj] at hobj ⊢
    have hrest : ∀ x ∈ rest, isJsObj x = true := fun x hx => h x (by simp [hx])
    obtain ⟨res, hres, hget⟩ :=
      ih (objInsert acc (jsValToString (jsGet (.obj f) "name")) (jsGet (.obj f) "value")) hrest
    refine ⟨res, ?_, fun k => ?_⟩
    · simpa [buildEnvObj, jsGetMember] using hres
    · rw [hget k, objGet_objInsert]
      simp only [envEntries, List.map_cons, lastAssoc]
      cases hla :
          lastAssoc k (List.map (fun it => (jsValToString (jsGet it "name"), jsGet it "value")) rest) with
      | none =>
        by_cases hk : k = jsValToString (jsGet (JsVal.obj f) "name") <;> simp [hk]
      | some w => simp

/-- The flat-list transform on a (truthy) array input: it succeeds, yields a
plain object, and lookup in that object is last-write-wins over the entries
in iteration order. -/
theorem convertEnvVars_arr (items : List JsVal) (h : ∀ it ∈ items, isJsObj it = true) :
    ∃ m, _convertEnvVars (.arr items) = .ok (.obj m) ∧
      ∀ k, objGet k m = lastAssoc k (envEntries items) := by
  obtain ⟨res, hres, hget⟩ := buildEnvObj_ok items [] h
  refine ⟨res, ?_, fun k => ?_⟩
  · simp [_convertEnvVars, jsTruthy, jsIterate, hres]
  · rw [hget k]
    cases lastAssoc k (envEntries items) <;> simp [objGet]

/-! ## Claims -/

/-- Claim C6: for every ordered sequence of name/value entries, given either
as a structure or as a JSON-encoded string, `_convertEnvVars` produces the
mapping from each name to its value, with the last occurrence winning when a
name is duplicated. -/
theorem claim_C6 (items : List JsVal) (h : ∀ it ∈ items, isJsObj it = true) :
    (∃ m, _convertEnvVars (.arr items) = .ok (.obj m) ∧
       ∀ k, objGet k m = lastAssoc k (envEntries items)) ∧
    (∀ s : String, s ≠ "" → jsonParse s = some (.arr items) →
       ∃ m, _convertEnvVars (.str s) = .ok (.obj m) ∧
         ∀ k, objGet k m = lastAssoc k (envEntries items)) := by
  refine ⟨convertEnvVars_arr items h, fun s hs hparse => ?_⟩
  obtain ⟨res, hres, hget⟩ := buildEnvObj_ok items [] h
  refine ⟨res, ?_, fun k => ?_⟩
  · simp [_convertEnvVars, jsTruthy, hs, hparse, jsIterate, hres]
  · rw [hget k]
    cases lastAssoc k (envEntries items) <;> simp [objGet]

/-- The duplicate-name flat-list input of claim C6, as a structure. -/
def c6Items : List JsVal :=
  [.obj [("name", .str "X"), ("value", .str "1")],
   .obj [("name", .str "X"), ("value", .str "2")]]

/-- Witness for claim C6: on the JSON string
`[{"name":"X","value":"1"},{"name":"X","value":"2"}]` the transform yields
the mapping `{"X": "2"}` (last write wins). -/
theorem claim_C6_witness :
    (∀ it ∈ c6Items, isJsObj it = true) ∧
    ("[\x7b\"name\":\"X\",\"value\":\"1\"\x7d,\x7b\"name\":\"X\",\"value\":\"2\"\x7d]" ≠ "") ∧
    jsonParse "[\x7b\"name\":\"X\",\"value\":\"1\"\x7d,\x7b\"name\":\"X\",\"value\":\"2\"\x7d]"
      = some (.arr c6Items) ∧
    (∃ m,
      _convertEnvVars
          (.str "[\x7b\"name\":\"X\",\"value\":\"1\"\x7d,\x7b\"name\":\"X\",\"value\":\"2\"\x7d]")
        = .ok (.obj m) ∧
      ∀ k, objGet k m = lastAssoc k (envEntries c6Items)) :=
  ⟨by decide, by decide, by rfl,
    (claim_C6 c6Items (by decide)).2
      "[\x7b\"name\":\"X\",\"value\":\"1\"\x7d,\x7b\"name\":\"X\",\"value\":\"2\"\x7d]"
      (by decide) (by rfl)⟩

/-- Counterexample to claim C5 as stated: applying `_convertEnvVars` to the
result of `_convertEnvVars` does not yield the same mapping again — the
first application turns the entry list into a plain mapping, and a plain
mapping is not iterable, so the second application throws a TypeError. -/
theorem claim_C5_counterexample :
    _convertEnvVars (.arr [.obj [("name", .str "X"), ("value", .str "1")]])
      = .ok (.obj [("X", .str "1")]) ∧
    _convertEnvVars (.obj [("X", .str "1")])
      = .error (.typeError "envVarArr is not iterable") ∧
    _convertEnvVars (.obj [("X", .str "1")])
      ≠ _convertEnvVars (.arr [.obj [("name", .str "X"), ("value", .str "1")]]) :=
  ⟨rfl, rfl, fun hc => Except.noConfusion hc⟩

/-- Claim C5 (amended): `_convertEnvVars` is a pure function of its input and
passes `null` through unchanged (so it is idempotent on `null`), but it is
not idempotent on re-supplied normalized mappings: for every well-formed
entry sequence the first application yields a plain mapping, and supplying
that mapping back as a literal raises a TypeError because a plain mapping is
not iterable. -/
theorem claim_C5_amended (items : List JsVal) (h : ∀ it ∈ items, isJsObj it = true) :
    (∃ m, _convertEnvVars (.arr items) = .ok (.obj m) ∧
       _convertEnvVars (.obj m) = .error (.typeError "envVarArr is not iterable")) ∧
    _convertEnvVars .null = .ok .null := by
  obtain ⟨m, hm, _⟩ := convertEnvVars_arr items h
  exact ⟨⟨m, hm, rfl⟩, rfl⟩

/-- Witness for the amended claim C5 at the singleton entry list. -/
theorem claim_C5_witness :
    (∀ it ∈ [JsVal.obj [("name", JsVal.str "X"), ("value", JsVal.str "1")]], isJsObj it = true) ∧
    ((∃ m, _convertEnvVars (.arr [.obj [("name", .str "X"), ("value", .str "1")]])
        = .ok (.obj m) ∧
       _convertEnvVars (.obj m) = .error (.typeError "envVarArr is not iterable")) ∧
     _convertEnvVars .null = .ok .null) :=
  ⟨by decide, claim_C5_amended [.obj [("name", .str "X"), ("value", .str "1")]] (by decide)⟩

/-- Claim C7: for every mapping given to `convertEnvVariables`, every key
ending with `'Children'` has its value replaced by the grouped transform,
every other key has its value replaced by the flat-list transform, and the
keys of the mapping (and their order) are unchanged. -/
theorem claim_C7 (env out : List (String × JsVal)) (h : convertEnvVariables env = .ok out) :
    out.map Prod.fst = env.map Prod.fst ∧
    ∀ i, (hi : i < env.length) → (ho : i < out.length) →
      (if strEndsWith (env.get ⟨i, hi⟩).1 "Children"
       then _convertEnvChildVars (env.get ⟨i, hi⟩).2
       else _convertEnvVars (env.get ⟨i, hi⟩).2) = .ok (out.get ⟨i, ho⟩).2 := by
  induction env generalizing out with
  | nil =>
    simp only [convertEnvVariables] at h
    injection h with h2
    subst h2
    exact ⟨rfl, fun i hi ho => absurd hi (by simp)⟩
  | cons kv rest ih =>
    obtain ⟨key, value⟩ := kv
    simp only [convertEnvVariables] at h
    split at h
    · exact absurd h (by simp)
    · rename_i v htr
      split at h
      · exact absurd h (by simp)
      · rename_i rest2 hr
        injection h with h2
        subst h2
        obtain ⟨ihmap, ihidx⟩ := ih rest2 hr
        refine ⟨by simp [ihmap], fun i hi ho => ?_⟩
        cases i with
        | zero => simpa using htr
        | succ j =>
          simp only [List.get_cons_succ]
          exact ihidx j (by simpa using hi) (by simpa using ho)

/-- The concrete mapping of claim C7's witness: one flat key and one grouped
key (the grouped entry is the spec's example
`[{id:"A", environmentVariables:[{name:"X",value:"1"}]}]`). -/
def c7Env : List (String × JsVal) :=
  [("vars", .arr [.obj [("name", .str "X"), ("value", .str "1")]]),
   ("envChildren", .arr [.obj [("id", .str "A"),
      ("environmentVariables", .arr [.obj [("name", .str "X"), ("value", .str "1")]])]])]

/-- The normalized form of `c7Env`: the grouped key maps to
`{"A": {"X": "1"}}`, the flat key to `{"X": "1"}`, and no key was added or
removed. -/
def c7Out : List (String × JsVal) :=
  [("vars", .obj [("X", .str "1")]),
   ("envChildren", .obj [("A", .obj [("X", .str "1")])])]

/-- Witness for claim C7 at a concrete mapping. -/
theorem claim_C7_witness :
    convertEnvVariables c7Env = .ok c7Out ∧
    (c7Out.map Prod.fst = c7Env.map Prod.fst ∧
     ∀ i, (hi : i < c7Env.length) → (ho : i < c7Out.length) →
       (if strEndsWith (c7Env.get ⟨i, hi⟩).1 "Children"
        then _convertEnvChildVars (c7Env.get ⟨i, hi⟩).2
        else _convertEnvVars (c7Env.get ⟨i, hi⟩).2) = .ok (c7Out.get ⟨i, ho⟩).2) :=
  ⟨rfl, claim_C7 c7Env c7Out rfl⟩

/-- Claim C2: `execCommandReturnStatus` never raises (its result type is
total — the one throwing step, `execSync`, is caught): it returns 0 when the
process succeeds, the process's reported exit code when it fails, and when
the process reports no status at all it returns the sentinel `none`
(modelling the unreassigned `null`/the absent `ex.status`), which is
distinct from 0 and propagated unchanged to the caller. -/
theorem claim_C2 (runner : String → ExecOutcome) (preMsg postMsg : Option String)
    (command : Command) :
    (runner (resolveCommand command) = .success →
       (execCommandReturnStatus runner preMsg command postMsg).2 = some 0) ∧
    (∀ ex, runner (resolveCommand command) = .failure ex →
       (execCommandReturnStatus runner preMsg command postMsg).2 = ex.status) ∧
    (∀ ex, runner (resolveCommand command) = .failure ex → ex.status = none →
       (execCommandReturnStatus runner preMsg command postMsg).2 = none ∧
         (none : Option Int) ≠ some 0) := by
  refine ⟨fun hs => ?_, fun ex hf => ?_, fun ex hf hn => ⟨?_, by simp⟩⟩
  · simp [execCommandReturnStatus, hs]
  · simp [execCommandReturnStatus, hf]
  · simp [execCommandReturnStatus, hf, hn]

/-- A process that exits with code 3; `execSync`'s exception message is the
usual `Command failed: <cmd>` and happens to contain no digit 3. -/
def runnerFail3 : String → ExecOutcome :=
  fun _ => .failure ⟨some 3, "Command failed: ./fail.sh"⟩

/-- Witness for claim C2: a command known to exit with code 3 yields 3. -/
theorem claim_C2_witness :
    runnerFail3 (resolveCommand (.str "./fail.sh"))
      = .failure ⟨some 3, "Command failed: ./fail.sh"⟩ ∧
    (execCommandReturnStatus runnerFail3 none (.str "./fail.sh") none).2 = some 3 :=
  ⟨rfl,
    (claim_C2 runnerFail3 none none (.str "./fail.sh")).2.1
      ⟨some 3, "Command failed: ./fail.sh"⟩ rfl⟩

/-- Counterexample to claim C4 as stated: for a command exiting with code 3,
the raised error's message is `new Error(ex)`'s message, i.e. the string form
`"Error: " ++ ex.message` of the underlying exception — the exit code 3 is
not inserted into it, so when the underlying message (here the usual
`Command failed: <cmd>`) contains no digit 3, neither does the raised
error. -/
theorem claim_C4_counterexample :
    (execCommand runnerFail3 none (.str "./fail.sh") none).2
      = .error (.jsError "Error: Command failed: ./fail.sh") ∧
    ¬ ∃ p q, "Error: Command failed: ./fail.sh" = p ++ "3" ++ q := by
  refine ⟨rfl, ?_⟩
  rintro ⟨p, q, hpq⟩
  have h3 : '3' ∈ "Error: Command failed: ./fail.sh".data := by
    rw [hpq]
    simp [String.data_append]
  exact absurd h3 (by decide)

/-- Claim C4 (amended): on process failure, `execCommand` first emits the
process's exit status and message at info level — and emits nothing at error
level — and then raises an error whose message is the string form of the
underlying exception (`"Error: " ++ ex.message`); the exit code appears in
the info-level log, but in the raised error's message only when the
underlying message happens to contain it. -/
theorem claim_C4_amended (runner : String → ExecOutcome) (preMsg postMsg : Option String)
    (command : Command) (ex : ExecException)
    (hfail : runner (resolveCommand command) = .failure ex) :
    execCommand runner preMsg command postMsg =
      ((match preMsg with
        | some m => [(LogLevel.progress, m)]
        | none => []) ++
        [(LogLevel.debug, "⚡ " ++ resolveCommand command),
         (LogLevel.info, statusToString ex.status ++ ": " ++ ex.message)],
       .error (.jsError ("Error: " ++ ex.message))) ∧
    ∀ e ∈ (execCommand runner preMsg command postMsg).1, e.1 ≠ LogLevel.error := by
  have hmain : execCommand runner preMsg command postMsg =
      ((match preMsg with
        | some m => [(LogLevel.progress, m)]
        | none => []) ++
        [(LogLevel.debug, "⚡ " ++ resolveCommand command),
         (LogLevel.info, statusToString ex.status ++ ": " ++ ex.message)],
       .error (.jsError ("Error: " ++ ex.message))) := by
    simp [execCommand, hfail, execErrorMessage]
  refine ⟨hmain, fun e he => ?_⟩
  rw [hmain] at he
  rcases preMsg with _ | m <;> simp at he <;>
    rcases he with rfl | rfl | rfl <;> simp

/-- Witness for the amended claim C4: the process of `runnerFail3` (exit code
3) makes `execCommand` log `3: Command failed: ./fail.sh` at info level, log
nothing at error level, and raise `Error: Command failed: ./fail.sh`. -/
theorem claim_C4_witness :
    runnerFail3 (resolveCommand (.str "./fail.sh"))
      = .failure ⟨some 3, "Command failed: ./fail.sh"⟩ ∧
    (execCommand runnerFail3 none (.str "./fail.sh") none =
       ([(LogLevel.debug, "⚡ ./fail.sh"),
         (LogLevel.info, "3: Command failed: ./fail.sh")],
        .error (.jsError "Error: Command failed: ./fail.sh")) ∧
     ∀ e ∈ (execCommand runnerFail3 none (.str "./fail.sh") none).1,
       e.1 ≠ LogLevel.error) :=
  ⟨rfl,
    claim_C4_amended runnerFail3 none none (.str "./fail.sh")
      ⟨some 3, "Command failed: ./fail.sh"⟩ rfl⟩

/-- Two `jsError`s with messages that start with different characters are
distinct. -/
theorem jsError_ne_of_head {s t : String} {c d : Char}
    (hc : s.data.head? = some c) (hd : t.data.head? = some d) (hne : c ≠ d) :
    JsError.jsError s ≠ JsError.jsError t := by
  intro h
  injection h with h2
  rw [h2, hd] at hc
  injection hc with h3
  exact hne h3.symm

/-- The missing-config-file message starts with `C` whatever the path is. -/
theorem configFileMsg_head (path : String) :
    ("Could not find config file " ++ path).data.head? = some 'C' := by
  rw [String.data_append, List.head?_append_of_ne_nil _ (by decide)]
  decide

/-- Claim C1: when the parsed configuration file has a credentials entry for
the given credential name that declares business units, and exactly one
business-unit name has a stored tenant id loosely equal to the requested
mid, `getBuName` logs and returns `credName ++ "/" ++ buName`. -/
theorem claim_C1 (path : String) (fs : FileSystem) (credName mid : String)
    (cfields creds entry bus : List (String × JsVal)) (buName : String)
    (hcred : credName ≠ "") (hmid : mid ≠ "")
    (hfile : fs.fileExists path = true)
    (hcfg : fs.parsedContent path = .obj cfields)
    (hcreds : objGet "credentials" cfields = some (.obj creds))
    (hentry : objGet credName creds = some (.obj entry))
    (hbus : objGet "businessUnits" entry = some (.obj bus))
    (hmatch : (jsObjectKeys (.obj bus)).filter
        (fun b => jsLooseEqStr (jsGet (.obj bus) b) mid) = [buName]) :
    getBuName path fs credName mid =
      ([(LogLevel.debug, "BU Name is: " ++ credName ++ "/" ++ buName)],
       .ok (.str (credName ++ "/" ++ buName))) := by
  have hmem1 : jsGetMember (fs.parsedContent path) "credentials" = .ok (.obj creds) := by
    rw [hcfg]; simp [jsGetMember, jsGet, hcreds]
  have hmem2 : jsGetMember (JsVal.obj creds) credName = .ok (.obj entry) := by
    simp [jsGetMember, jsGet, hentry]
  have hbus2 : jsGet (JsVal.obj entry) "businessUnits" = .obj bus := by
    simp [jsGet, hbus]
  simp [getBuName, hcred, hmid, hfile, hmem1, hmem2, hbus2, jsTruthy, hmatch]

/-- The configuration file of the witnesses:
`{credentials:{"C1":{businessUnits:{"bu1":"100","bu2":"200"}}}}`. -/
def witnessConfig : JsVal :=
  .obj [("credentials", .obj [("C1", .obj [("businessUnits",
    .obj [("bu1", .str "100"), ("bu2", .str "200")])])])]

/-- A filesystem on which every path exists and holds `witnessConfig`. -/
def witnessFs : FileSystem :=
  { fileExists := fun _ => true, parsedContent := fun _ => witnessConfig }

/-- Witness for claim C1: with the config above, credential name `C1` and
mid `100`, `getBuName` returns `C1/bu1`. -/
theorem claim_C1_witness :
    ("C1" : String) ≠ "" ∧ ("100" : String) ≠ "" ∧
    witnessFs.fileExists ".mcdevrc.json" = true ∧
    getBuName ".mcdevrc.json" witnessFs "C1" "100" =
      ([(LogLevel.debug, "BU Name is: C1/bu1")], .ok (.str "C1/bu1")) :=
  ⟨by decide, by decide, rfl,
    claim_C1 ".mcdevrc.json" witnessFs "C1" "100"
      [("credentials", .obj [("C1", .obj [("businessUnits",
         .obj [("bu1", .str "100"), ("bu2", .str "200")])])])]
      [("C1", .obj [("businessUnits", .obj [("bu1", .str "100"), ("bu2", .str "200")])])]
      [("businessUnits", .obj [("bu1", .str "100"), ("bu2", .str "200")])]
      [("bu1", .str "100"), ("bu2", .str "200")]
      "bu1" (by decide) (by decide) rfl rfl rfl rfl rfl (by rfl)⟩

/-- Claim C3: when the credentials entry exists and declares business units
but the number of business-unit names whose stored tenant id loosely equals
the requested mid is not exactly one, `getBuName` raises an error whose
message names both the tenant id and the credential name. -/
theorem claim_C3 (path : String) (fs : FileSystem) (credName mid : String)
    (cfields creds entry bus : List (String × JsVal))
    (hcred : credName ≠ "") (hmid : mid ≠ "")
    (hfile : fs.fileExists path = true)
    (hcfg : fs.parsedContent path = .obj cfields)
    (hcreds : objGet "credentials" cfields = some (.obj creds))
    (hentry : objGet credName creds = some (.obj entry))
    (hbus : objGet "businessUnits" entry = some (.obj bus))
    (hlen : ((jsObjectKeys (.obj bus)).filter
        (fun b => jsLooseEqStr (jsGet (.obj bus) b) mid)).length ≠ 1) :
    getBuName path fs credName mid =
      ([], .error (.jsError ("MID " ++ mid ++ " not found for " ++ credName))) ∧
    (∃ p q, "MID " ++ mid ++ " not found for " ++ credName = p ++ mid ++ q) ∧
    (∃ p q, "MID " ++ mid ++ " not found for " ++ credName = p ++ credName ++ q) := by
  have hmem1 : jsGetMember (fs.parsedContent path) "credentials" = .ok (.obj creds) := by
    rw [hcfg]; simp [jsGetMember, jsGet, hcreds]
  have hmem2 : jsGetMember (JsVal.obj creds) credName = .ok (.obj entry) := by
    simp [jsGetMember, jsGet, hentry]
  have hbus2 : jsGet (JsVal.obj entry) "businessUnits" = .obj bus := by
    simp [jsGet, hbus]
  refine ⟨?_, ⟨"MID ", " not found for " ++ credName, by simp [String.append_assoc]⟩,
    ⟨"MID " ++ mid ++ " not found for ", "", by rw [String.append_empty]⟩⟩
  cases hfil : (jsObjectKeys (JsVal.obj bus)).filter
      (fun b => jsLooseEqStr (jsGet (JsVal.obj bus) b) mid) with
  | nil => simp [getBuName, hcred, hmid, hfile, hmem1, hmem2, hbus2, jsTruthy, hfil]
  | cons b rest =>
    cases rest with
    | nil =>
      exact absurd
        (show ((jsObjectKeys (JsVal.obj bus)).filter
            (fun b => jsLooseEqStr (jsGet (JsVal.obj bus) b) mid)).length = 1
          by rw [hfil]; rfl)
        hlen
    | cons b2 rest2 =>
      simp [getBuName, hcred, hmid, hfile, hmem1, hmem2, hbus2, jsTruthy, hfil]

/-- Witness for claim C3: same config, mid `999` — zero matches, so
`getBuName` raises `MID 999 not found for C1`. -/
theorem claim_C3_witness :
    ("C1" : String) ≠ "" ∧ ("999" : String) ≠ "" ∧
    (getBuName ".mcdevrc.json" witnessFs "C1" "999" =
       ([], .error (.jsError ("MID " ++ "999" ++ " not found for " ++ "C1"))) ∧
     (∃ p q, "MID " ++ "999" ++ " not found for " ++ "C1" = p ++ "999" ++ q) ∧
     (∃ p q, "MID " ++ "999" ++ " not found for " ++ "C1" = p ++ "C1" ++ q)) :=
  ⟨by decide, by decide,
    claim_C3 ".mcdevrc.json" witnessFs "C1" "999"
      [("credentials", .obj [("C1", .obj [("businessUnits",
         .obj [("bu1", .str "100"), ("bu2", .str "200")])])])]
      [("C1", .obj [("businessUnits", .obj [("bu1", .str "100"), ("bu2", .str "200")])])]
      [("businessUnits", .obj [("bu1", .str "100"), ("bu2", .str "200")])]
      [("bu1", .str "100"), ("bu2", .str "200")]
      (by decide) (by decide) rfl rfl rfl rfl rfl (by decide)⟩

/-- Claim C8: `getBuName` checks its preconditions in a fixed order —
credential name present, then tenant id present, then configuration file
exists — raising a distinct error at the first violated one. With an empty
credential name the missing-credential-name error is raised for every
filesystem and every mid, i.e. without any filesystem access. -/
theorem claim_C8 (path : String) (fs : FileSystem) (credName mid : String) :
    (credName = "" → ∀ (fs2 : FileSystem) (mid2 : String),
       getBuName path fs2 credName mid2
         = ([], .error (.jsError "System Property \"credentialName\" not set"))) ∧
    (credName ≠ "" → mid = "" →
       getBuName path fs credName mid
         = ([], .error (.jsError "System Property \"mid\" not set"))) ∧
    (credName ≠ "" → mid ≠ "" → fs.fileExists path = false →
       getBuName path fs credName mid
         = ([], .error (.jsError ("Could not find config file " ++ path)))) ∧
    JsError.jsError "System Property \"credentialName\" not set"
      ≠ JsError.jsError "System Property \"mid\" not set" ∧
    JsError.jsError "System Property \"credentialName\" not set"
      ≠ JsError.jsError ("Could not find config file " ++ path) ∧
    JsError.jsError "System Property \"mid\" not set"
      ≠ JsError.jsError ("Could not find config file " ++ path) := by
  refine ⟨fun h1 fs2 mid2 => ?_, fun h1 h2 => ?_, fun h1 h2 h3 => ?_, by decide, ?_, ?_⟩
  · simp [getBuName, h1]
  · simp [getBuName, h1, h2]
  · simp [getBuName, h1, h2, h3]
  · exact jsError_ne_of_head (c := 'S') (d := 'C') (by decide) (configFileMsg_head path)
      (by decide)
  · exact jsError_ne_of_head (c := 'S') (d := 'C') (by decide) (configFileMsg_head path)
      (by decide)

/-- A filesystem on which no path exists. -/
def emptyFs : FileSystem :=
  { fileExists := fun _ => false, parsedContent := fun _ => .null }

/-- Witness for claim C8: each precondition violation at a concrete input,
in particular `credentialName = ""` fails with the missing-credential-name
error on a filesystem without the file. -/
theorem claim_C8_witness :
    getBuName "cfg.json" emptyFs "" "100"
      = ([], .error (.jsError "System Property \"credentialName\" not set")) ∧
    getBuName "cfg.json" emptyFs "C1" ""
      = ([], .error (.jsError "System Property \"mid\" not set")) ∧
    ("C1" : String) ≠ "" ∧ ("100" : String) ≠ "" ∧
    emptyFs.fileExists "cfg.json" = false ∧
    getBuName "cfg.json" emptyFs "C1" "100"
      = ([], .error (.jsError ("Could not find config file " ++ "cfg.json"))) :=
  ⟨(claim_C8 "cfg.json" emptyFs "" "100").1 rfl emptyFs "100",
   (claim_C8 "cfg.json" emptyFs "C1" "").2.1 (by decide) rfl,
   by decide, by decide, rfl,
   (claim_C8 "cfg.json" emptyFs "C1" "100").2.2.1 (by decide) (by decide) rfl⟩

/-- Claim C9: with valid inputs and an existing configuration file, when the
credentials entry for the credential name is absent, or exists but has no
`businessUnits` field, `getBuName` returns `undefined` and does not raise. -/
theorem claim_C9 (path : String) (fs : FileSystem) (credName mid : String)
    (cfields creds : List (String × JsVal))
    (hcred : credName ≠ "") (hmid : mid ≠ "")
    (hfile : fs.fileExists path = true)
    (hcfg : fs.parsedContent path = .obj cfields)
    (hcreds : objGet "credentials" cfields = some (.obj creds))
    (habs : objGet credName creds = none ∨
      ∃ entry, objGet credName creds = some entry ∧
        jsGet entry "businessUnits" = .undefined) :
    getBuName path fs credName mid = ([], .ok .undefined) := by
  have hmem1 : jsGetMember (fs.parsedContent path) "credentials" = .ok (.obj creds) := by
    rw [hcfg]; simp [jsGetMember, jsGet, hcreds]
  rcases habs with hnone | ⟨entry, hentry, hbu⟩
  · have hmem2 : jsGetMember (JsVal.obj creds) credName = .ok .undefined := by
      simp [jsGetMember, jsGet, hnone]
    simp [getBuName, hcred, hmid, hfile, hmem1, hmem2, jsTruthy]
  · have hmem2 : jsGetMember (JsVal.obj creds) credName = .ok entry := by
      simp [jsGetMember, jsGet, hentry]
    by_cases htr : jsTruthy entry = true
    · simp [getBuName, hcred, hmid, hfile, hmem1, hmem2, htr, hbu, jsTruthy]
    · simp [getBuName, hcred, hmid, hfile, hmem1, hmem2, htr]

/-- Witness for claim C9: the witness config has no credentials entry named
`C2`, so the lookup returns `undefined` without raising. -/
theorem claim_C9_witness :
    ("C2" : String) ≠ "" ∧ ("100" : String) ≠ "" ∧
    witnessFs.fileExists ".mcdevrc.json" = true ∧
    getBuName ".mcdevrc.json" witnessFs "C2" "100" = ([], .ok .undefined) :=
  ⟨by decide, by decide, rfl,
    claim_C9 ".mcdevrc.json" witnessFs "C2" "100"
      [("credentials", .obj [("C1", .obj [("businessUnits",
         .obj [("bu1", .str "100"), ("bu2", .str "200")])])])]
      [("C1", .obj [("businessUnits", .obj [("bu1", .str "100"), ("bu2", .str "200")])])]
      (by decide) (by decide) rfl rfl rfl (Or.inl rfl)⟩

/-- Claim C10: with valid inputs and an existing configuration file whose
parsed document has no top-level `credentials` field, `getBuName` raises a
TypeError (the access `config.credentials[credName]` dereferences
`undefined`) rather than returning the undefined no-resolution result. -/
theorem claim_C10 (path : String) (fs : FileSystem) (credName mid : String)
    (cfields : List (String × JsVal))
    (hcred : credName ≠ "") (hmid : mid ≠ "")
    (hfile : fs.fileExists path = true)
    (hcfg : fs.parsedContent path = .obj cfields)
    (hnocreds : objGet "credentials" cfields = none) :
    getBuName path fs credName mid =
      ([], .error (.typeError
        ("Cannot read properties of undefined (reading " ++ credName ++ ")"))) := by
  have hmem1 : jsGetMember (fs.parsedContent path) "credentials" = .ok .undefined := by
    rw [hcfg]; simp [jsGetMember, jsGet, hnocreds]
  have hmem2 : jsGetMember JsVal.undefined credName =
      .error (.typeError ("Cannot read properties of undefined (reading " ++ credName ++ ")")) :=
    rfl
  simp [getBuName, hcred, hmid, hfile, hmem1, hmem2]

/-- A filesystem whose configuration file parses to an object without a
`credentials` field. -/
def noCredsFs : FileSystem :=
  { fileExists := fun _ => true, parsedContent := fun _ => .obj [("other", .null)] }

/-- Witness for claim C10 at a concrete config without `credentials`. -/
theorem claim_C10_witness :
    ("C1" : String) ≠ "" ∧ ("100" : String) ≠ "" ∧
    noCredsFs.fileExists "cfg.json" = true ∧
    getBuName "cfg.json" noCredsFs "C1" "100" =
      ([], .error (.typeError
        ("Cannot read properties of undefined (reading " ++ "C1" ++ ")"))) :=
  ⟨by decide, by decide, rfl,
    claim_C10 "cfg.json" noCredsFs "C1" "100" [("other", .null)]
      (by decide) (by decide) rfl rfl rfl⟩

end SfmcCopado
